import Mathlib

/-!
Verification of the libbeat publisher pipeline contracts
(src/libbeat/beat/pipeline.go), the monitoring fields schema
(src/unnamed/part_000), the metricbeat modules manager
(src/metricbeat/cmd/modules.go) and the input metrics registry
(src/metricbeat/module/kafka/partition/partition_integration_test.go).

The repository ships the pipeline as a set of Go interfaces plus their
documented contracts; the concrete Client implementation lives outside the
provided sources. Where only the contract is available, the model below is
built from the specification text and is marked as such in its doc comment.
-/

namespace Beats

/-- Modelled from the spec: an Event is a timestamped, semi-structured record
with a field mapping and an opaque private slot (libbeat/beat event type is
not under src/). The claims never inspect the payload, only pass it through. -/
structure Event where
  timestamp : Nat
  fields : List (String × String)
  priv : Nat
deriving DecidableEq, Repr

/-! ### Client lifecycle and callback model

Modelled from the spec (the concrete pipeline Client is not under src/, only
the interfaces and their documented contracts in pipeline.go are):
a Client transitions opened → closing → closed; callbacks observed by the
ClientListener and the EventListener are recorded in a trace. -/

/-- Client lifecycle state: Open → Closing (no new Publish accepted, pending
ACKs still delivered) → Closed (ACKEvents calls cease). -/
inductive CState where
  | opened
  | closing
  | closed
deriving DecidableEq, Repr

/-- One observable callback on the ClientListener (cl…) or the
EventListener (el…) of a Client. -/
inductive Callback where
  | clNewEvent
  | clFiltered
  | clPublished
  | clDroppedOnPublish (e : Event)
  | elAddEvent (published : Bool)
  | elACKEvents (n : Nat)
  | clClosing
  | elClientClosed
  | clClosed
deriving DecidableEq, Repr

/-- State of one pipeline Client: lifecycle state, number of events admitted
to the queue (Published fired), running total of delivered ACKs, and the
trace of listener callbacks fired so far. -/
structure ClientState where
  st : CState
  published : Nat
  ackedSum : Nat
  trace : List Callback
deriving DecidableEq, Repr

/-- Modelled from the spec: the initial state of a freshly connected Client. -/
def init : ClientState := { st := .opened, published := 0, ackedSum := 0, trace := [] }

/-- Outcome of running one event through the processor chain and queue
admission: filtered by a processor, admitted to the queue, or dropped while
waiting for the queue. -/
inductive PubOutcome where
  | filtered
  | publishedOk
  | droppedOnPublish
deriving DecidableEq, Repr

/-- Modelled from the spec: Publish runs the event through the processors and
queue admission; it always fires NewEvent first, then exactly one of
Filtered, Published or DroppedOnPublish, and AddEvent exactly once with
published=false for filtered and dropped events. Publish after Close is
rejected (ClientClosedError) and fires no callbacks. -/
def stepPublish (o : PubOutcome) (e : Event) (s : ClientState) : ClientState :=
  if s.st = CState.opened then
    match o with
    | .filtered =>
        { s with trace := s.trace ++ [.clNewEvent, .clFiltered, .elAddEvent false] }
    | .publishedOk =>
        { s with published := s.published + 1,
                 trace := s.trace ++ [.clNewEvent, .clPublished, .elAddEvent true] }
    | .droppedOnPublish =>
        { s with trace := s.trace ++ [.clNewEvent, .clDroppedOnPublish e, .elAddEvent false] }
  else s

/-- Modelled from the spec: the ACK Coordinator attributes a queue ACK report
of k entries to this Client. Entries are acknowledged only once and only
admitted (published) entries can be acknowledged, so at most the outstanding
count is delivered; delivery is suppressed entirely once ClientClosed has
fired (closed state). -/
def deliverAck (k : Nat) (s : ClientState) : ClientState :=
  if s.st = CState.closed then s
  else if min k (s.published - s.ackedSum) = 0 then s
  else
    { s with ackedSum := s.ackedSum + min k (s.published - s.ackedSum),
             trace := s.trace ++ [.elACKEvents (min k (s.published - s.ackedSum))] }

/-- Modelled from the spec: the first phase of Close, transitioning
Open → Closing; new Publish calls fail from this point on. -/
def beginCloseStep (s : ClientState) : ClientState :=
  if s.st = CState.opened then { s with st := CState.closing } else s

/-- Modelled from the spec: the final phase of Close, firing
ClientListener.Closing, EventListener.ClientClosed and ClientListener.Closed
in that order, exactly once, and entering the closed state. -/
def finishCloseStep (s : ClientState) : ClientState :=
  if s.st = CState.closing then
    { s with st := CState.closed,
             trace := s.trace ++ [.clClosing, .elClientClosed, .clClosed] }
  else s

/-- Modelled from the spec: the bounded wait inside Close. Each tick consumes
the next ACK arrival from the environment and delivers it; the loop stops
early once no events are outstanding, and otherwise waits out the whole
WaitClose budget. Returns the state and the number of ticks waited. -/
def waitLoop : Nat → List Nat → ClientState → ClientState × Nat
  | 0, _, s => (s, 0)
  | Nat.succ w, arr, s =>
      if s.ackedSum = s.published then (s, 0)
      else
        let s2 := deliverAck (arr.headD 0) s
        let r := waitLoop w arr.tail s2
        (r.1, r.2 + 1)

/-- Modelled from the spec: Client.Close. A second call on a closed Client
returns immediately with no error and fires no callbacks. Otherwise the
Client enters Closing, waits up to waitClose ticks for outstanding ACKs
(only when the EventListener performs ACK-based bookkeeping), then fires
Closing → ClientClosed → Closed and enters the closed state. Returns the
final state, the ticks waited, and the error (always none). -/
def close (waitClose : Nat) (hasACKListener : Bool) (arr : List Nat)
    (s : ClientState) : ClientState × Nat × Option String :=
  if s.st = CState.closed then (s, 0, none)
  else
    let s1 := { s with st := CState.closing }
    let r := if hasACKListener then waitLoop waitClose arr s1 else (s1, 0)
    (finishCloseStep r.1, r.2, none)

/-- Commands driving one Client: a publish attempt with its processing
outcome, an ACK report from the queue, the two phases of an in-flight Close,
and a whole Close call. -/
inductive Cmd where
  | publish (o : PubOutcome) (e : Event)
  | ackReport (k : Nat)
  | beginClose
  | finishClose
  | doClose (w : Nat) (hasACK : Bool) (arr : List Nat)
deriving Repr

/-- One step of the Client model. -/
def step (s : ClientState) : Cmd → ClientState
  | .publish o e => stepPublish o e s
  | .ackReport k => deliverAck k s
  | .beginClose => beginCloseStep s
  | .finishClose => finishCloseStep s
  | .doClose w h arr => (close w h arr s).1

/-- Run a command sequence from a state. -/
def run (cmds : List Cmd) (s : ClientState) : ClientState :=
  cmds.foldl step s

/-- Sum of all ACKEvents counts in a callback trace. -/
def sumACK : List Callback → Nat
  | [] => 0
  | .elACKEvents n :: t => n + sumACK t
  | _ :: t => sumACK t

/-- Number of Published callbacks in a trace. -/
def countPub : List Callback → Nat
  | [] => 0
  | .clPublished :: t => 1 + countPub t
  | _ :: t => countPub t

/-- Number of occurrences of a given callback in a trace. -/
def countCB (c : Callback) : List Callback → Nat
  | [] => 0
  | x :: t => (if x = c then 1 else 0) + countCB c t

/-- Whether a callback is an ACKEvents delivery. -/
def Callback.isACK : Callback → Bool
  | .elACKEvents _ => true
  | _ => false

/-- A trace respects ACK suppression when no ACKEvents callback occurs after
the first ClientClosed callback. -/
def ackSuppressed : List Callback → Bool
  | [] => true
  | .elClientClosed :: t => t.all (fun c => !c.isACK)
  | _ :: t => ackSuppressed t

/-! ### ClientListener and CombinedClientListener (src/libbeat/beat/pipeline.go) -/

/-- The ClientListener interface of pipeline.go: six callbacks acting on a
shared world of type σ (a method call is an effect on that world). -/
structure ClientListener (σ : Type) where
  Closing : σ → σ
  Closed : σ → σ
  NewEvent : σ → σ
  Filtered : σ → σ
  Published : σ → σ
  DroppedOnPublish : Event → σ → σ

/-- CombinedClientListener from pipeline.go: holds two listeners A and B. -/
structure CombinedClientListener (σ : Type) where
  A : ClientListener σ
  B : ClientListener σ

/-- Embeds the Closing method: c.A.Closing() then c.B.Closing(). -/
def CombinedClientListener.Closing (c : CombinedClientListener σ) (s : σ) : σ :=
  c.B.Closing (c.A.Closing s)

/-- Embeds the Closed method: c.A.Closed() then c.B.Closed(). -/
def CombinedClientListener.Closed (c : CombinedClientListener σ) (s : σ) : σ :=
  c.B.Closed (c.A.Closed s)

/-- Embeds the NewEvent method: c.A.NewEvent() then c.B.NewEvent(). -/
def CombinedClientListener.NewEvent (c : CombinedClientListener σ) (s : σ) : σ :=
  c.B.NewEvent (c.A.NewEvent s)

/-- Embeds the Filtered method: c.A.Filtered() then c.B.Filtered(). -/
def CombinedClientListener.Filtered (c : CombinedClientListener σ) (s : σ) : σ :=
  c.B.Filtered (c.A.Filtered s)

/-- Embeds the Published method: c.A.Published() then c.B.Published(). -/
def CombinedClientListener.Published (c : CombinedClientListener σ) (s : σ) : σ :=
  c.B.Published (c.A.Published s)

/-- Embeds the DroppedOnPublish method: c.A.DroppedOnPublish(event) then
c.B.DroppedOnPublish(event), forwarding the same event to both. -/
def CombinedClientListener.DroppedOnPublish (c : CombinedClientListener σ)
    (e : Event) (s : σ) : σ :=
  c.B.DroppedOnPublish e (c.A.DroppedOnPublish e s)

/-- Record of one listener method invocation, used to observe which method a
combinator invoked on which delegate and with which argument. -/
inductive LCall where
  | closing
  | closed
  | newEvent
  | filtered
  | publishedCall
  | droppedOnPublish (e : Event)
deriving DecidableEq, Repr

/-- The recording listener with identity i: every method appends its own
invocation record, tagged with i, to the shared trace. -/
def recListener (i : Nat) : ClientListener (List (Nat × LCall)) where
  Closing := fun t => t ++ [(i, .closing)]
  Closed := fun t => t ++ [(i, .closed)]
  NewEvent := fun t => t ++ [(i, .newEvent)]
  Filtered := fun t => t ++ [(i, .filtered)]
  Published := fun t => t ++ [(i, .publishedCall)]
  DroppedOnPublish := fun e t => t ++ [(i, .droppedOnPublish e)]

/-! ### PublishMode and ConnectWith validation (src/libbeat/beat/pipeline.go) -/

/-- PublishMode is a uint8 enum in pipeline.go; its value is kept as a Nat. -/
def DefaultGuarantees : Nat := 0

/-- GuaranteedSend, the second enum value of PublishMode. -/
def GuaranteedSend : Nat := 1

/-- DropIfFull, the third enum value of PublishMode. -/
def DropIfFull : Nat := 2

/-- ClientConfig from pipeline.go, restricted to the parts the validation
claims observe: the PublishMode value, the WaitClose duration and whether
each listener was provided. -/
structure ClientConfig where
  publishMode : Nat
  waitClose : Nat
  hasEventListener : Bool
  hasClientListener : Bool
deriving DecidableEq, Repr

/-- Error taxonomy of the pipeline as given by the spec. -/
inductive PipelineError where
  | configError (msg : String)
  | clientClosedError
deriving DecidableEq, Repr

/-- A constructed Client handle wrapping the shared queue: holds the
validated configuration it was built from. -/
structure ClientHandle where
  cfg : ClientConfig
deriving DecidableEq, Repr

/-- Modelled from the spec: Pipeline.ConnectWith validates the ClientConfig —
PublishMode must be one of the recognized enum values — then constructs a
Client wrapping the shared Queue; otherwise it fails with ConfigError (the
concrete pipeline implementation is not under src/, only the interface). -/
def ConnectWith (cfg : ClientConfig) : Except PipelineError ClientHandle :=
  if cfg.publishMode = DefaultGuarantees ∨ cfg.publishMode = GuaranteedSend ∨
      cfg.publishMode = DropIfFull then
    .ok { cfg := cfg }
  else
    .error (.configError "invalid publish mode")

/-! ### Input metrics registry (NewInputRegistry, src/metricbeat/module/kafka/partition/partition_integration_test.go) -/

/-- A monitoring registry, reduced to the set of names registered in it. -/
structure Registry where
  names : List String
deriving DecidableEq, Repr

/-- sanitizeID from the source: replaces every dot in the id with an
underscore so ids do not create nested registry objects. -/
def sanitizeID (id : String) : String :=
  id.replace "." "_"

/-- Modelled from the spec: Registry.NewRegistry of the external monitoring
package (elastic-agent-libs, not under src/). Per the spec and the
NewInputRegistry doc comment, registering a duplicate name is a programming
error that fails fast (panics) and never silently overwrites; a free name is
added to the parent and a fresh empty sub-registry is returned. The result
pairs the updated parent with the new sub-registry. -/
def Registry.newRegistry (r : Registry) (key : String) :
    Except String (Registry × Registry) :=
  if key ∈ r.names then .error "registry already exists"
  else .ok ({ names := r.names ++ [key] }, { names := [] })

/-- Modelled from the spec: NewString registers a named string variable in a
registry (external monitoring package, not under src/). -/
def Registry.newString (r : Registry) (name : String) : Registry :=
  { names := r.names ++ [name] }

/-- The effective parent registry used by NewInputRegistry: the provided
parent, or the global dataset registry when none is given; metrics are null
routed to a fresh registry when the id or the input type is empty and the
parent is the global registry. -/
def effectiveParent (inputType id : String) (global : Registry)
    (parent : Option Registry) : Registry :=
  let pr := parent.getD global
  if (id = "" ∨ inputType = "") ∧ pr = global then { names := [] } else pr

/-- NewInputRegistry from the source: resolves the effective parent registry,
sanitizes the id into the registration key, registers a fresh sub-registry
under that key (panicking, as an error here, when the key is taken), and
records the input type and id inside the new registry. Returns the updated
effective parent and the new registry. -/
def NewInputRegistry (inputType id : String) (global : Registry)
    (parent : Option Registry) : Except String (Registry × Registry) :=
  let parentRegistry := effectiveParent inputType id global parent
  let key := sanitizeID id
  match parentRegistry.newRegistry key with
  | .error e => .error e
  | .ok pr =>
      let reg := (pr.2.newString "input").newString "id"
      .ok (pr.1, reg)

/-! ### BuildModulesManager (src/metricbeat/cmd/modules.go) -/

/-- A GlobManager as constructed by BuildModulesManager: the glob pattern and
the enabled and disabled file extensions it was built with. -/
structure GlobManager where
  glob : String
  enabledExt : String
  disabledExt : String
deriving DecidableEq, Repr

/-- Embeds strings.HasSuffix over the character lists of the two strings. -/
def hasSuffix (s suff : String) : Bool :=
  List.isSuffixOf suff.data s.data

/-- BuildModulesManager from the source. The beat configuration lookup of the
string at config.modules.path and the cfgfile.NewGlobManager constructor are
external collaborators (not under src/) and are passed in as the results the
code consumes: the lookup result and the constructor. The control flow is the
code of modules.go: a failed lookup reports the missing setting, a glob not
ending in *.yml reports wrong settings, a failed construction reports an
initialization error, and otherwise the constructed manager is returned. -/
def BuildModulesManager (configModulesPath : Except String String)
    (newGlobManager : String → Except String GlobManager) :
    Except String GlobManager :=
  match configModulesPath with
  | .error _ =>
      .error "modules management requires the config.modules.path setting"
  | .ok glob =>
      if ¬ hasSuffix glob "*.yml" then
        .error ("wrong settings for config.modules.path, it is expected to end with *.yml. Got: " ++ glob)
      else
        match newGlobManager glob with
        | .error e => .error ("initialization error: " ++ e)
        | .ok m => .ok m

/-! ### Monitoring fields schema (src/unnamed/part_000, libbeat group) -/

/-- A node of the monitoring fields schema: either a leaf field with a type
and an optional metric_type annotation, or a named group of fields. -/
inductive FieldSchema where
  | leaf (name : String) (ty : String) (metricType : Option String)
  | group (name : String) (fields : List FieldSchema)

/-- Name of a schema node. -/
def FieldSchema.name : FieldSchema → String
  | .leaf n _ _ => n
  | .group n _ => n

/-- Child fields of a schema node (empty for a leaf). -/
def FieldSchema.subfields : FieldSchema → List FieldSchema
  | .leaf _ _ _ => []
  | .group _ fs => fs

/-- Looks a name up in a field list. -/
def findField (fs : List FieldSchema) (n : String) : Option FieldSchema :=
  fs.find? (fun f => f.name = n)

/-- Follows a path of names through nested groups of a field list. -/
def findPath (fs : List FieldSchema) : List String → Option FieldSchema
  | [] => none
  | [n] => findField fs n
  | n :: rest =>
      match findField fs n with
      | some f => findPath f.subfields rest
      | none => none

/-- The libbeat pipeline queue group of the schema (part_000 lines 594-651). -/
def queueGroupFields : List FieldSchema :=
  [ .leaf "acked" "long" (some "counter"),
    .leaf "added.bytes" "long" (some "counter"),
    .leaf "added.events" "long" (some "counter"),
    .leaf "consumed.bytes" "long" (some "counter"),
    .leaf "consumed.events" "long" (some "counter"),
    .leaf "filled.bytes" "long" (some "gauge"),
    .leaf "filled.events" "long" (some "gauge"),
    .leaf "filled.pct" "float" (some "gauge"),
    .leaf "max_events" "long" (some "gauge"),
    .leaf "removed.bytes" "long" (some "counter"),
    .leaf "removed.events" "long" (some "counter") ]

/-- The libbeat pipeline events group of the schema (part_000 lines 652-668). -/
def pipelineEventsGroupFields : List FieldSchema :=
  [ .leaf "active" "long" none,
    .leaf "dropped" "long" none,
    .leaf "failed" "long" none,
    .leaf "filtered" "long" none,
    .leaf "published" "long" none,
    .leaf "retry" "long" none,
    .leaf "total" "long" none ]

/-- The libbeat output group of the schema (part_000 lines 680-767). -/
def outputGroupFields : List FieldSchema :=
  [ .leaf "type" "keyword" none,
    .group "events"
      [ .leaf "acked" "long" none,
        .leaf "active" "long" none,
        .leaf "batches" "long" none,
        .leaf "dropped" "long" none,
        .leaf "duplicates" "long" none,
        .leaf "failed" "long" none,
        .leaf "toomany" "long" none,
        .leaf "total" "long" none ],
    .group "read"
      [ .leaf "bytes" "long" none,
        .leaf "errors" "long" none ],
    .group "write"
      [ .leaf "bytes" "long" none,
        .leaf "errors" "long" none,
        .group "latency"
          [ .group "histogram"
              [ .leaf "count" "long" none,
                .leaf "max" "float" none,
                .leaf "median" "long" none,
                .leaf "p95" "float" none,
                .leaf "p99" "float" none ] ] ] ]

/-- The libbeat group of the schema (part_000 lines 584-767): fields common
to all Beats, holding the pipeline, config and output groups. -/
def libbeatFields : List FieldSchema :=
  [ .group "pipeline"
      [ .leaf "clients" "long" none,
        .group "queue" queueGroupFields,
        .group "events" pipelineEventsGroupFields ],
    .group "config"
      [ .leaf "running" "long" none,
        .leaf "starts" "long" none,
        .leaf "stops" "long" none,
        .leaf "reloads" "long" none ],
    .group "output" outputGroupFields ]

/-! ### Helper lemmas about traces and the Client model -/

theorem sumACK_append (t1 t2 : List Callback) :
    sumACK (t1 ++ t2) = sumACK t1 + sumACK t2 := by
  induction t1 with
  | nil => simp [sumACK]
  | cons x t ih => cases x <;> simp [sumACK, ih] <;> omega

theorem countPub_append (t1 t2 : List Callback) :
    countPub (t1 ++ t2) = countPub t1 + countPub t2 := by
  induction t1 with
  | nil => simp [countPub]
  | cons x t ih => cases x <;> simp [countPub, ih] <;> omega

theorem countCB_append (c : Callback) (t1 t2 : List Callback) :
    countCB c (t1 ++ t2) = countCB c t1 + countCB c t2 := by
  induction t1 with
  | nil => simp [countCB]
  | cons x t ih =>
      rw [List.cons_append]
      simp only [countCB]
      rw [ih]
      omega

theorem ackSuppressed_append (t1 t2 : List Callback)
    (h : Callback.elClientClosed ∉ t1) :
    ackSuppressed (t1 ++ t2) = ackSuppressed t2 := by
  induction t1 with
  | nil => rfl
  | cons x t ih =>
      have hx : x ≠ Callback.elClientClosed := by
        intro hEq
        exact h (hEq ▸ List.mem_cons_self x t)
      have ht : Callback.elClientClosed ∉ t :=
        fun hm => h (List.mem_cons_of_mem x hm)
      rw [List.cons_append]
      cases x
      case elClientClosed => exact absurd rfl hx
      all_goals exact ih ht

/-- The inductive invariant of the Client model: ACKs never outrun admitted
events, the trace totals agree with the state counters, ACKs are suppressed
after ClientClosed, and ClientClosed has not fired before the closed state. -/
def Inv (s : ClientState) : Prop :=
  s.ackedSum ≤ s.published ∧
  sumACK s.trace = s.ackedSum ∧
  countPub s.trace = s.published ∧
  ackSuppressed s.trace = true ∧
  (s.st ≠ CState.closed → Callback.elClientClosed ∉ s.trace)

theorem inv_init : Inv init := by
  refine ⟨Nat.le_refl 0, rfl, rfl, rfl, ?_⟩
  intro _ hm
  simp [init] at hm

theorem deliverAck_st (k : Nat) (s : ClientState) : (deliverAck k s).st = s.st := by
  unfold deliverAck
  split
  · rfl
  · split
    · rfl
    · rfl

theorem deliverAck_inv (k : Nat) (s : ClientState) (h : Inv s) :
    Inv (deliverAck k s) := by
  obtain ⟨hle, hsum, hpub, hsup, hmem⟩ := h
  unfold deliverAck
  by_cases h1 : s.st = CState.closed
  · rw [if_pos h1]
    exact ⟨hle, hsum, hpub, hsup, hmem⟩
  · rw [if_neg h1]
    have hnc : Callback.elClientClosed ∉ s.trace := hmem h1
    by_cases h2 : min k (s.published - s.ackedSum) = 0
    · rw [if_pos h2]
      exact ⟨hle, hsum, hpub, hsup, hmem⟩
    · rw [if_neg h2]
      refine ⟨?_, ?_, ?_, ?_, ?_⟩
      · have := Nat.min_le_right k (s.published - s.ackedSum)
        simp only []
        omega
      · simp [sumACK_append, sumACK, hsum]
      · simp [countPub_append, countPub, hpub]
      · rw [ackSuppressed_append _ _ hnc]
        rfl
      · intro _ hm
        rcases List.mem_append.mp hm with hm1 | hm2
        · exact hnc hm1
        · simp at hm2

theorem waitLoop_st (w : Nat) (arr : List Nat) (s : ClientState) :
    (waitLoop w arr s).1.st = s.st := by
  induction w generalizing arr s with
  | zero => rfl
  | succ n ih =>
      unfold waitLoop
      by_cases h : s.ackedSum = s.published
      · rw [if_pos h]
      · rw [if_neg h]
        simp only []
        rw [ih]
        exact deliverAck_st _ _

theorem waitLoop_inv (w : Nat) (arr : List Nat) (s : ClientState) (h : Inv s) :
    Inv (waitLoop w arr s).1 := by
  induction w generalizing arr s with
  | zero => exact h
  | succ n ih =>
      unfold waitLoop
      by_cases hc : s.ackedSum = s.published
      · rw [if_pos hc]
        exact h
      · rw [if_neg hc]
        exact ih _ _ (deliverAck_inv _ _ h)

theorem stepPublish_inv (o : PubOutcome) (e : Event) (s : ClientState)
    (h : Inv s) : Inv (stepPublish o e s) := by
  obtain ⟨hle, hsum, hpub, hsup, hmem⟩ := h
  unfold stepPublish
  by_cases h1 : s.st = CState.opened
  · rw [if_pos h1]
    have hnc : Callback.elClientClosed ∉ s.trace := by
      refine hmem ?_
      rw [h1]
      intro hcl
      exact CState.noConfusion hcl
    cases o
    all_goals
      refine ⟨?_, ?_, ?_, ?_, ?_⟩
      · simp only []
        omega
      · simp [sumACK_append, sumACK, hsum]
      · simp [countPub_append, countPub, hpub]
        try omega
      · rw [ackSuppressed_append _ _ hnc]
        rfl
      · intro _ hm
        rcases List.mem_append.mp hm with hm1 | hm2
        · exact hnc hm1
        · simp at hm2
  · rw [if_neg h1]
    exact ⟨hle, hsum, hpub, hsup, hmem⟩

theorem beginCloseStep_inv (s : ClientState) (h : Inv s) :
    Inv (beginCloseStep s) := by
  obtain ⟨hle, hsum, hpub, hsup, hmem⟩ := h
  unfold beginCloseStep
  by_cases h1 : s.st = CState.opened
  · rw [if_pos h1]
    refine ⟨hle, hsum, hpub, hsup, ?_⟩
    intro _ hm
    refine hmem ?_ hm
    rw [h1]
    intro hcl
    exact CState.noConfusion hcl
  · rw [if_neg h1]
    exact ⟨hle, hsum, hpub, hsup, hmem⟩

theorem finishCloseStep_inv (s : ClientState) (h : Inv s) :
    Inv (finishCloseStep s) := by
  obtain ⟨hle, hsum, hpub, hsup, hmem⟩ := h
  unfold finishCloseStep
  by_cases h1 : s.st = CState.closing
  · rw [if_pos h1]
    have hnc : Callback.elClientClosed ∉ s.trace := by
      refine hmem ?_
      rw [h1]
      intro hcl
      exact CState.noConfusion hcl
    refine ⟨hle, ?_, ?_, ?_, ?_⟩
    · simp [sumACK_append, sumACK, hsum]
    · simp [countPub_append, countPub, hpub]
    · rw [ackSuppressed_append _ _ hnc]
      rfl
    · intro hne _
      exact hne rfl
  · rw [if_neg h1]
    exact ⟨hle, hsum, hpub, hsup, hmem⟩

theorem closingOverride_inv (s : ClientState) (h : Inv s)
    (hne : s.st ≠ CState.closed) : Inv { s with st := CState.closing } := by
  obtain ⟨hle, hsum, hpub, hsup, hmem⟩ := h
  refine ⟨hle, hsum, hpub, hsup, ?_⟩
  intro _ hm
  exact hmem hne hm

theorem close_inv (w : Nat) (hb : Bool) (arr : List Nat) (s : ClientState)
    (h : Inv s) : Inv (close w hb arr s).1 := by
  unfold close
  by_cases h1 : s.st = CState.closed
  · rw [if_pos h1]
    exact h
  · rw [if_neg h1]
    simp only []
    refine finishCloseStep_inv _ ?_
    cases hb
    · simpa using closingOverride_inv s h h1
    · simpa using waitLoop_inv w arr _ (closingOverride_inv s h h1)

theorem step_inv (s : ClientState) (c : Cmd) (h : Inv s) : Inv (step s c) := by
  cases c with
  | publish o e => exact stepPublish_inv o e s h
  | ackReport k => exact deliverAck_inv k s h
  | beginClose => exact beginCloseStep_inv s h
  | finishClose => exact finishCloseStep_inv s h
  | doClose w hb arr => exact close_inv w hb arr s h

theorem run_inv (cmds : List Cmd) (s : ClientState) (h : Inv s) :
    Inv (run cmds s) := by
  induction cmds generalizing s with
  | nil => exact h
  | cons c rest ih => exact ih _ (step_inv s c h)

theorem deliverAck_closing (k : Nat) (s : ClientState)
    (hst : s.st = CState.closing) (hlt : s.ackedSum < s.published) (hk : 0 < k) :
    (deliverAck k s).trace =
      s.trace ++ [Callback.elACKEvents (min k (s.published - s.ackedSum))] := by
  unfold deliverAck
  rw [if_neg (by rw [hst]; intro hcl; exact CState.noConfusion hcl)]
  rw [if_neg (by omega)]

/-! ### Claim theorems for the Client lifecycle model -/

/-- C1: per Client, the running sum of the ACKEvents deliveries in any
reachable trace never exceeds the number of events for which Published has
fired: the pipeline never over-acknowledges. -/
theorem claim_never_over_acknowledges (cmds : List Cmd) :
    sumACK (run cmds init).trace ≤ countPub (run cmds init).trace := by
  obtain ⟨hle, hsum, hpub, _, _⟩ := run_inv cmds init inv_init
  rw [hsum, hpub]
  exact hle

/-- C5: for a Client whose EventListener performs no ACK-based bookkeeping,
Close ignores WaitClose entirely: any two WaitClose durations give identical
results (same final state, same callbacks, same error) and Close returns
immediately, waiting zero ticks. -/
theorem claim_close_independent_of_waitClose (w1 w2 : Nat) (arr : List Nat)
    (s : ClientState) :
    close w1 false arr s = close w2 false arr s ∧
    (close w1 false arr s).2.1 = 0 := by
  have key : ∀ w : Nat, close w false arr s =
      if s.st = CState.closed then (s, 0, none)
      else (finishCloseStep { s with st := CState.closing }, 0, none) := by
    intro w
    unfold close
    by_cases h1 : s.st = CState.closed
    · rw [if_pos h1, if_pos h1]
    · rw [if_neg h1, if_neg h1]
      rfl
  constructor
  · rw [key w1, key w2]
  · rw [key w1]
    split
    · rfl
    · rfl

/-- C6: ACK deliveries keep flowing to a Closing Client with pending events
(a positive ACK report appends an ACKEvents callback), and in every reachable
trace no ACKEvents callback ever occurs after ClientClosed has fired. -/
theorem claim_ack_delivery_lifecycle (cmds : List Cmd) (k : Nat) :
    ackSuppressed (run cmds init).trace = true ∧
    ((run cmds init).st = CState.closing →
      (run cmds init).ackedSum < (run cmds init).published →
      (deliverAck (k + 1) (run cmds init)).trace =
        (run cmds init).trace ++
          [Callback.elACKEvents
            (min (k + 1) ((run cmds init).published - (run cmds init).ackedSum))]) := by
  constructor
  · exact (run_inv cmds init inv_init).2.2.2.1
  · intro hst hlt
    exact deliverAck_closing (k + 1) _ hst hlt (Nat.succ_pos k)

/-- Witness for C6: after publishing one event and entering Closing, the
hypotheses hold concretely and one pending ACK is still delivered. -/
theorem claim_ack_delivery_lifecycle_witness :
    (run [Cmd.publish PubOutcome.publishedOk ⟨0, [], 0⟩, Cmd.beginClose] init).st
        = CState.closing ∧
    (run [Cmd.publish PubOutcome.publishedOk ⟨0, [], 0⟩, Cmd.beginClose] init).ackedSum
        < (run [Cmd.publish PubOutcome.publishedOk ⟨0, [], 0⟩, Cmd.beginClose] init).published ∧
    ackSuppressed
        (run [Cmd.publish PubOutcome.publishedOk ⟨0, [], 0⟩, Cmd.beginClose] init).trace
        = true ∧
    (deliverAck 1
        (run [Cmd.publish PubOutcome.publishedOk ⟨0, [], 0⟩, Cmd.beginClose] init)).trace =
      (run [Cmd.publish PubOutcome.publishedOk ⟨0, [], 0⟩, Cmd.beginClose] init).trace ++
        [Callback.elACKEvents
          (min 1
            ((run [Cmd.publish PubOutcome.publishedOk ⟨0, [], 0⟩, Cmd.beginClose] init).published -
             (run [Cmd.publish PubOutcome.publishedOk ⟨0, [], 0⟩, Cmd.beginClose] init).ackedSum))] :=
  ⟨by decide, by decide,
   (claim_ack_delivery_lifecycle
      [Cmd.publish PubOutcome.publishedOk ⟨0, [], 0⟩, Cmd.beginClose] 0).1,
   (claim_ack_delivery_lifecycle
      [Cmd.publish PubOutcome.publishedOk ⟨0, [], 0⟩, Cmd.beginClose] 0).2
     (by decide) (by decide)⟩

theorem deliverAck_countCB (c : Callback) (k : Nat) (s : ClientState)
    (hc : ∀ n, c ≠ Callback.elACKEvents n) :
    countCB c (deliverAck k s).trace = countCB c s.trace := by
  unfold deliverAck
  split
  · rfl
  · split
    · rfl
    · have hne : Callback.elACKEvents (min k (s.published - s.ackedSum)) ≠ c :=
        fun hEq => hc _ hEq.symm
      simp only []
      rw [countCB_append]
      simp [countCB, hne]

theorem waitLoop_countCB (c : Callback) (w : Nat) (arr : List Nat)
    (s : ClientState) (hc : ∀ n, c ≠ Callback.elACKEvents n) :
    countCB c (waitLoop w arr s).1.trace = countCB c s.trace := by
  induction w generalizing arr s with
  | zero => rfl
  | succ n ih =>
      unfold waitLoop
      by_cases h : s.ackedSum = s.published
      · rw [if_pos h]
      · rw [if_neg h]
        simp only []
        rw [ih]
        exact deliverAck_countCB c _ s hc

theorem finishCloseStep_countCB (s : ClientState) (hst : s.st = CState.closing)
    (c : Callback)
    (hone : countCB c [Callback.clClosing, Callback.elClientClosed, Callback.clClosed] = 1) :
    countCB c (finishCloseStep s).trace = countCB c s.trace + 1 := by
  unfold finishCloseStep
  rw [if_pos hst]
  simp only []
  rw [countCB_append, hone]

theorem close_st (w : Nat) (hb : Bool) (arr : List Nat) (s : ClientState) :
    (close w hb arr s).1.st = CState.closed ∨ s.st = CState.closed := by
  unfold close
  by_cases h1 : s.st = CState.closed
  · right
    exact h1
  · left
    rw [if_neg h1]
    simp only []
    by_cases hb0 : hb = true
    · rw [if_pos hb0]
      unfold finishCloseStep
      rw [if_pos (by rw [waitLoop_st])]
    · rw [if_neg hb0]
      unfold finishCloseStep
      rw [if_pos rfl]

theorem close_closed (w : Nat) (hb : Bool) (arr : List Nat) (s : ClientState)
    (h1 : s.st = CState.closed) : close w hb arr s = (s, 0, none) := by
  unfold close
  rw [if_pos h1]

theorem close_countCB (w : Nat) (hb : Bool) (arr : List Nat) (s : ClientState)
    (h1 : ¬ s.st = CState.closed) (c : Callback)
    (hc : ∀ n, c ≠ Callback.elACKEvents n)
    (hone : countCB c [Callback.clClosing, Callback.elClientClosed, Callback.clClosed] = 1) :
    countCB c (close w hb arr s).1.trace = countCB c s.trace + 1 := by
  unfold close
  rw [if_neg h1]
  simp only []
  by_cases hb0 : hb = true
  · rw [if_pos hb0]
    rw [finishCloseStep_countCB _ (by rw [waitLoop_st]) c hone]
    rw [waitLoop_countCB c _ _ _ hc]
  · rw [if_neg hb0]
    rw [finishCloseStep_countCB _ rfl c hone]

theorem close_result_closed (w : Nat) (hb : Bool) (arr : List Nat)
    (s : ClientState) : (close w hb arr s).1.st = CState.closed := by
  rcases close_st w hb arr s with h | h
  · exact h
  · rw [close_closed w hb arr s h]
    exact h

/-- C2: Close is idempotent. From an open Client whose trace has no lifecycle
callbacks yet, a second Close returns immediately (zero wait), with no error,
fires no callbacks again, and across both calls Closing, ClientClosed and
Closed each fire exactly once. -/
theorem claim_close_idempotent (s : ClientState) (w w' : Nat) (hb hb' : Bool)
    (arr arr' : List Nat)
    (hopen : s.st = CState.opened)
    (h1 : countCB Callback.clClosing s.trace = 0)
    (h2 : countCB Callback.elClientClosed s.trace = 0)
    (h3 : countCB Callback.clClosed s.trace = 0) :
    (close w' hb' arr' (close w hb arr s).1).1 = (close w hb arr s).1 ∧
    (close w' hb' arr' (close w hb arr s).1).2.1 = 0 ∧
    (close w' hb' arr' (close w hb arr s).1).2.2 = none ∧
    countCB Callback.clClosing (close w hb arr s).1.trace = 1 ∧
    countCB Callback.elClientClosed (close w hb arr s).1.trace = 1 ∧
    countCB Callback.clClosed (close w hb arr s).1.trace = 1 := by
  have hfst : (close w hb arr s).1.st = CState.closed := close_result_closed w hb arr s
  have hsecond := close_closed w' hb' arr' _ hfst
  have hne : ¬ s.st = CState.closed := by
    rw [hopen]
    intro hcl
    exact CState.noConfusion hcl
  refine ⟨?_, ?_, ?_, ?_, ?_, ?_⟩
  · rw [hsecond]
  · rw [hsecond]
  · rw [hsecond]
  · rw [close_countCB w hb arr s hne Callback.clClosing
        (fun n hEq => Callback.noConfusion hEq) (by decide), h1]
  · rw [close_countCB w hb arr s hne Callback.elClientClosed
        (fun n hEq => Callback.noConfusion hEq) (by decide), h2]
  · rw [close_countCB w hb arr s hne Callback.clClosed
        (fun n hEq => Callback.noConfusion hEq) (by decide), h3]

/-- Witness for C2: a fresh Client closed with a pending wait budget and then
closed again satisfies all hypotheses and conclusions concretely. -/
theorem claim_close_idempotent_witness :
    init.st = CState.opened ∧
    countCB Callback.clClosing init.trace = 0 ∧
    countCB Callback.elClientClosed init.trace = 0 ∧
    countCB Callback.clClosed init.trace = 0 ∧
    ((close 0 false [] (close 5 true [1] init).1).1 = (close 5 true [1] init).1 ∧
     (close 0 false [] (close 5 true [1] init).1).2.1 = 0 ∧
     (close 0 false [] (close 5 true [1] init).1).2.2 = none ∧
     countCB Callback.clClosing (close 5 true [1] init).1.trace = 1 ∧
     countCB Callback.elClientClosed (close 5 true [1] init).1.trace = 1 ∧
     countCB Callback.clClosed (close 5 true [1] init).1.trace = 1) :=
  ⟨rfl, rfl, rfl, rfl,
   claim_close_idempotent init 5 0 true false [1] [] rfl rfl rfl rfl⟩

/-! ### Claim theorems for the remaining components -/

/-- C3: for every pair of ClientListeners, each CombinedClientListener method
delegates to the same method of A first and of B second; instantiated with
recording listeners, every method produces exactly one invocation on A and
then exactly one on B of that same method (and no other method), with
DroppedOnPublish forwarding the identical Event to both. -/
theorem claim_combined_listener_fanout {σ : Type} (A B : ClientListener σ)
    (s : σ) (t : List (Nat × LCall)) (e : Event) :
    ((CombinedClientListener.mk A B).Closing s = B.Closing (A.Closing s) ∧
     (CombinedClientListener.mk A B).Closed s = B.Closed (A.Closed s) ∧
     (CombinedClientListener.mk A B).NewEvent s = B.NewEvent (A.NewEvent s) ∧
     (CombinedClientListener.mk A B).Filtered s = B.Filtered (A.Filtered s) ∧
     (CombinedClientListener.mk A B).Published s = B.Published (A.Published s) ∧
     (CombinedClientListener.mk A B).DroppedOnPublish e s =
       B.DroppedOnPublish e (A.DroppedOnPublish e s)) ∧
    ((CombinedClientListener.mk (recListener 0) (recListener 1)).Closing t =
       t ++ [(0, LCall.closing), (1, LCall.closing)] ∧
     (CombinedClientListener.mk (recListener 0) (recListener 1)).Closed t =
       t ++ [(0, LCall.closed), (1, LCall.closed)] ∧
     (CombinedClientListener.mk (recListener 0) (recListener 1)).NewEvent t =
       t ++ [(0, LCall.newEvent), (1, LCall.newEvent)] ∧
     (CombinedClientListener.mk (recListener 0) (recListener 1)).Filtered t =
       t ++ [(0, LCall.filtered), (1, LCall.filtered)] ∧
     (CombinedClientListener.mk (recListener 0) (recListener 1)).Published t =
       t ++ [(0, LCall.publishedCall), (1, LCall.publishedCall)] ∧
     (CombinedClientListener.mk (recListener 0) (recListener 1)).DroppedOnPublish e t =
       t ++ [(0, LCall.droppedOnPublish e), (1, LCall.droppedOnPublish e)]) := by
  refine ⟨⟨rfl, rfl, rfl, rfl, rfl, rfl⟩, ?_, ?_, ?_, ?_, ?_, ?_⟩
  all_goals
    simp [CombinedClientListener.Closing, CombinedClientListener.Closed,
      CombinedClientListener.NewEvent, CombinedClientListener.Filtered,
      CombinedClientListener.Published, CombinedClientListener.DroppedOnPublish,
      recListener]

/-- C4: ConnectWith constructs and returns a Client exactly when the
PublishMode is one of the three recognized enum values DefaultGuarantees (0),
GuaranteedSend (1) or DropIfFull (2); every other value fails with a
ConfigError and no Client is constructed. -/
theorem claim_connectWith_validates (cfg : ClientConfig) :
    ((cfg.publishMode = DefaultGuarantees ∨ cfg.publishMode = GuaranteedSend ∨
        cfg.publishMode = DropIfFull) ∧
      ConnectWith cfg = .ok { cfg := cfg }) ∨
    (¬ (cfg.publishMode = DefaultGuarantees ∨ cfg.publishMode = GuaranteedSend ∨
        cfg.publishMode = DropIfFull) ∧
      ConnectWith cfg = .error (.configError "invalid publish mode")) := by
  by_cases h : cfg.publishMode = DefaultGuarantees ∨
      cfg.publishMode = GuaranteedSend ∨ cfg.publishMode = DropIfFull
  · left
    refine ⟨h, ?_⟩
    unfold ConnectWith
    rw [if_pos h]
  · right
    refine ⟨h, ?_⟩
    unfold ConnectWith
    rw [if_neg h]

/-- C7: NewInputRegistry fails fast (the modelled panic) exactly when a
registry named sanitizeID(id) is already registered in the effective parent
registry, never overwriting it; when the name is free, it registers the name
in the effective parent and returns a fresh sub-registry holding the input
and id entries. -/
theorem claim_input_registry_failfast (inputType id : String)
    (global : Registry) (parent : Option Registry) :
    (sanitizeID id ∈ (effectiveParent inputType id global parent).names ∧
      NewInputRegistry inputType id global parent = .error "registry already exists") ∨
    (sanitizeID id ∉ (effectiveParent inputType id global parent).names ∧
      NewInputRegistry inputType id global parent =
        .ok ({ names := (effectiveParent inputType id global parent).names ++ [sanitizeID id] },
             { names := ["input", "id"] })) := by
  by_cases h : sanitizeID id ∈ (effectiveParent inputType id global parent).names
  · left
    refine ⟨h, ?_⟩
    unfold NewInputRegistry Registry.newRegistry
    simp only []
    rw [if_pos h]
  · right
    refine ⟨h, ?_⟩
    unfold NewInputRegistry Registry.newRegistry
    simp only []
    rw [if_neg h]
    rfl

/-- C8: the monitoring fields schema defines, under the libbeat pipeline
queue group, fields named acked, added.events and filled.pct, and under the
libbeat output group, an events dropped counter, a write.bytes counter, and
a write latency histogram with p95 and p99 percentile fields. -/
theorem claim_monitoring_fields_schema :
    findPath libbeatFields ["pipeline", "queue", "acked"] =
      some (FieldSchema.leaf "acked" "long" (some "counter")) ∧
    findPath libbeatFields ["pipeline", "queue", "added.events"] =
      some (FieldSchema.leaf "added.events" "long" (some "counter")) ∧
    findPath libbeatFields ["pipeline", "queue", "filled.pct"] =
      some (FieldSchema.leaf "filled.pct" "float" (some "gauge")) ∧
    findPath libbeatFields ["output", "events", "dropped"] =
      some (FieldSchema.leaf "dropped" "long" none) ∧
    findPath libbeatFields ["output", "write", "bytes"] =
      some (FieldSchema.leaf "bytes" "long" none) ∧
    findPath libbeatFields ["output", "write", "latency", "histogram", "p95"] =
      some (FieldSchema.leaf "p95" "float" none) ∧
    findPath libbeatFields ["output", "write", "latency", "histogram", "p99"] =
      some (FieldSchema.leaf "p99" "float" none) :=
  ⟨rfl, rfl, rfl, rfl, rfl, rfl, rfl⟩

/-- C9: BuildModulesManager returns an error exactly when the configuration
has no string at config.modules.path, or the string does not end with *.yml,
or the GlobManager construction fails; in every other case it returns the
constructed GlobManager. -/
theorem claim_buildModulesManager (cp : Except String String)
    (ngm : String → Except String GlobManager) :
    ((∃ e, BuildModulesManager cp ngm = .error e) ↔
      ((∃ e, cp = .error e) ∨
       (∃ g, cp = .ok g ∧ hasSuffix g "*.yml" = false) ∨
       (∃ g e, cp = .ok g ∧ hasSuffix g "*.yml" = true ∧ ngm g = .error e))) ∧
    (∀ g m, cp = .ok g → hasSuffix g "*.yml" = true → ngm g = .ok m →
      BuildModulesManager cp ngm = .ok m) := by
  cases cp with
  | error e0 =>
      constructor
      · constructor
        · intro _
          exact Or.inl ⟨e0, rfl⟩
        · intro _
          exact ⟨"modules management requires the config.modules.path setting", rfl⟩
      · intro g m hg
        exact Except.noConfusion hg
  | ok g0 =>
      unfold BuildModulesManager
      simp only []
      by_cases hs : hasSuffix g0 "*.yml" = true
      · rw [if_neg (not_not_intro hs)]
        cases hng : ngm g0 with
        | error e1 =>
            constructor
            · constructor
              · intro _
                exact Or.inr (Or.inr ⟨g0, e1, rfl, hs, hng⟩)
              · intro _
                exact ⟨"initialization error: " ++ e1, rfl⟩
            · intro g m hg hsuf hok
              rw [Except.ok.injEq] at hg
              rw [← hg] at hok
              rw [hok] at hng
              exact Except.noConfusion hng
        | ok m0 =>
            constructor
            · constructor
              · intro hex
                obtain ⟨e, he⟩ := hex
                exact Except.noConfusion he
              · intro hcases
                rcases hcases with ⟨e, he⟩ | ⟨g, hg, hfalse⟩ | ⟨g, e, hg, _, herr⟩
                · exact Except.noConfusion he
                · rw [Except.ok.injEq] at hg
                  rw [← hg] at hfalse
                  rw [hs] at hfalse
                  exact Bool.noConfusion hfalse
                · rw [Except.ok.injEq] at hg
                  rw [← hg] at herr
                  rw [hng] at herr
                  exact Except.noConfusion herr
            · intro g m hg hsuf hok
              rw [Except.ok.injEq] at hg
              rw [← hg] at hok
              rw [hok] at hng
              rw [Except.ok.injEq] at hng
              show Except.ok m0 = Except.ok m
              rw [hng]
      · rw [if_pos hs]
        constructor
        · constructor
          · intro _
            refine Or.inr (Or.inl ⟨g0, rfl, ?_⟩)
            cases hval : hasSuffix g0 "*.yml"
            · rfl
            · exact absurd hval hs
          · intro _
            exact ⟨_, rfl⟩
        · intro g m hg hsuf
          rw [Except.ok.injEq] at hg
          rw [← hg] at hsuf
          exact absurd hsuf hs

/-- Witness for C9: a well-formed path and a succeeding constructor yield the
constructed manager. -/
theorem claim_buildModulesManager_witness :
    hasSuffix "modules.d/*.yml" "*.yml" = true ∧
    BuildModulesManager (Except.ok "modules.d/*.yml")
        (fun g => Except.ok { glob := g, enabledExt := ".yml", disabledExt := ".disabled" }) =
      Except.ok { glob := "modules.d/*.yml", enabledExt := ".yml", disabledExt := ".disabled" } :=
  ⟨by decide,
   (claim_buildModulesManager (Except.ok "modules.d/*.yml")
      (fun g => Except.ok { glob := g, enabledExt := ".yml", disabledExt := ".disabled" })).2
     "modules.d/*.yml" _ rfl (by decide) rfl⟩

end Beats
